import Mathlib

/-!
Verification development for the HBCC-Scores server (`src/server.js`).

The `/api/matches` handler is embedded shallowly:

* upstream JSON records become Lean structures whose fields are `Option`-typed
  (`none` stands for an absent / `undefined` / `null` field, `some` for a
  present value — the JS code never distinguishes `null` from `undefined`
  through the `??` / truthiness operators it uses on these fields);
* machine timestamps are `Int` milliseconds: `Date.parse` is modelled by
  storing the already-parsed time in `ScheduleEntry.startDateTime`
  (`none` covers an absent or falsy `startDateTime`);
* each network `fetch`+parse is an explicit `Except` parameter of the handler
  (`.error` = the fetch or the body parse threw), so the catch-and-degrade
  control flow of the handler becomes explicit case analysis;
* `Array.prototype.sort` (stable, per the ECMAScript specification) is
  modelled by `List.insertionSort`, which Mathlib proves sorted and stable;
  the numeric comparator `tB - tA` over times-with-negative-infinity becomes
  the relation `beatsR` over `WithBot Int`.
-/

/-- One delivery record from the ball-by-ball feed, with the fields the
handler reads (`server.js` lines 229-237). Every field is optional. -/
structure Ball where
  strikerParticipantId : Option String
  strikerShortName : Option String
  striker : Option String
  nonStrikerParticipantId : Option String
  nonStrikerShortName : Option String
  nonStriker : Option String
  bowlerParticipantId : Option String
  bowlerShortName : Option String
  bowler : Option String
  ballTime : Option String
deriving Repr, DecidableEq

/-- One element of an upstream balls payload array. The payload is dynamically
typed: an element can be a ball record, an innings-like object (whose `balls`
property, when present, is itself an array of payload elements), or `null`. -/
inductive BodyElem where
  | ball (b : Ball)
  | innings (balls : Option (List BodyElem))
  | nullElem
deriving Repr

/-- The parsed body of a balls endpoint response: a top-level array, a
top-level object carrying optional `innings` / `balls` arrays, or `null`. -/
inductive BallsBody where
  | arr (es : List BodyElem)
  | obj (innings : Option (List BodyElem)) (balls : Option (List BodyElem))
  | null
deriving Repr

/-- The value of `e.balls` for a payload element `e` (`undefined` unless `e`
is an innings object carrying a `balls` array). -/
def elemBalls : BodyElem → Option (List BodyElem)
  | .innings bs => bs
  | _ => none

/-- JavaScript truthiness of a payload element: only `null` is falsy
(ball / innings objects are always truthy). -/
def elemTruthy : BodyElem → Bool
  | .nullElem => false
  | _ => true

/-- The classification test `ballsBody.length && ballsBody[0] && ballsBody[0].balls`
(`server.js` line 163): the array is nonempty, its first element is truthy,
and that element exposes a (present, hence truthy) `balls` array. -/
def firstHasBalls : List BodyElem → Bool
  | [] => false
  | e :: _ => elemTruthy e && (elemBalls e).isSome

/-- A normalized innings: either a raw payload element kept as-is (the
array-of-innings and wrapped-innings branches keep the upstream elements), or
a synthesized `\x7b balls: ... \x7d` wrapper built around a flat ball list. -/
inductive NInnings where
  | raw (e : BodyElem)
  | synth (balls : List BodyElem)
deriving Repr

/-- Shape classification and normalization of a balls payload into the
uniform innings list `inningsArray` (`server.js` lines 160-173):
array of innings / flat ball array / wrapped innings / wrapped balls.
The wrapped-innings test (`Array.isArray(ballsBody.innings)`) is applied
before the wrapped-balls test. Anything else yields no innings. -/
def normalizeBalls : BallsBody → List NInnings
  | .arr es => if firstHasBalls es then es.map NInnings.raw else [NInnings.synth es]
  | .obj (some il) _ => il.map NInnings.raw
  | .obj none (some bl) => [NInnings.synth bl]
  | .obj none none => []
  | .null => []

/-- The expression `Array.isArray(lastInnings.balls) ? lastInnings.balls : []`
(`server.js` line 178). Reading `.balls` off a `null` innings element throws
a TypeError (`.error`); a raw element without a balls array gives `[]`;
otherwise the balls list is returned. -/
def inningsBalls : NInnings → Except Unit (List BodyElem)
  | .raw .nullElem => .error ()
  | .raw e => .ok ((elemBalls e).getD [])
  | .synth bl => .ok bl

/-- Last-ball extraction (`server.js` lines 176-182): `.ok` the last element
of the balls list of the last normalized innings (or `.ok none` when there
is no innings or no ball), `.error` when line 178 throws on a `null` last
innings element. -/
def resolveLastBall (body : BallsBody) : Except Unit (Option BodyElem) :=
  match (normalizeBalls body).getLast? with
  | none => .ok none
  | some li =>
    match inningsBalls li with
    | .error _ => .error ()
    | .ok bl => .ok bl.getLast?

/-- Truthiness of the `lastBall` variable: set to a non-null value. -/
def truthyOpt : Option BodyElem → Bool
  | some e => elemTruthy e
  | none => false

/-- Value of the `lastBall` variable after the primary body has been
classified and the fallback block has run (`server.js` lines 159-208).
If the primary extraction throws (null last innings, line 178), the throw is
caught only by the catch at line 209, which sits after the fallback block:
the fallback is skipped and the variable stays `null`. If it completes with
a truthy ball the fallback is skipped; otherwise the alternate body (when
its fetch succeeded) is classified identically, its extracted ball, if any,
overwrites the variable, and a throw inside the alt block is swallowed by
the inner catch at lines 205-207, keeping the variable. -/
def ballsVarAfterAlt (body : BallsBody) (altFetch : Except Unit BallsBody) :
    Option BodyElem :=
  match resolveLastBall body with
  | .error _ => none
  | .ok lb =>
    if truthyOpt lb then lb
    else
      match altFetch with
      | .error _ => lb
      | .ok ab =>
        match resolveLastBall ab with
        | .ok (some b) => some b
        | .ok none => lb
        | .error _ => lb

/-- Value of the `lastBall` variable after the whole balls step
(`server.js` lines 152-211): a failed primary fetch is caught and leaves the
variable `null` (the fallback is inside the same `try`, so it is skipped). -/
def resolveBallsFlow (ballsFetch altFetch : Except Unit BallsBody) :
    Option BodyElem :=
  match ballsFetch with
  | .error _ => none
  | .ok body => ballsVarAfterAlt body altFetch

/-- Number of requests made to the alternate balls endpoint: one exactly when
the primary fetch succeeded and its extraction completed without a truthy
last ball. A primary fetch failure, or a TypeError thrown during primary
extraction (caught at line 209, past the fallback block), makes zero
attempts. -/
def altAttempts (ballsFetch : Except Unit BallsBody) : Nat :=
  match ballsFetch with
  | .error _ => 0
  | .ok body =>
    match resolveLastBall body with
    | .error _ => 0
    | .ok lb => if truthyOpt lb then 0 else 1

/-- One entry of a match's `matchSchedule` list. `startDateTime` holds the
already-parsed start time in milliseconds (`none` = absent or falsy). -/
structure ScheduleEntry where
  startDateTime : Option Int
deriving Repr, DecidableEq

/-- A team record inside a match. `oversBowled` is absent upstream and only
written by the enrichment step (`server.js` lines 213-223). -/
structure Team where
  id : String
  name : Option String
  oversBowled : Option String
deriving Repr, DecidableEq

/-- A match record from the upstream matches list, with the fields the
handler reads. -/
structure Match where
  id : String
  status : String
  teams : List Team
  matchSchedule : List ScheduleEntry
deriving Repr, DecidableEq

/-- The parsed body of the matches-list endpoint. `matchList` models the
`matches` property (`data.matches`; the source name is a reserved word in
Lean). -/
structure MatchesData where
  matchList : Option (List Match)
deriving Repr, DecidableEq

/-- The helper `getScheduleStart` (`server.js` line 122): the first schedule
entry's `startDateTime`, or `null` when the schedule is empty/absent or the
first entry carries no truthy start time. -/
def getScheduleStart (m : Match) : Option Int :=
  match m.matchSchedule with
  | [] => none
  | e :: _ => e.startDateTime

/-- Sort key of a candidate: its parsed schedule start, with a scheduleless
candidate keyed at negative infinity (`server.js` lines 124-125). -/
def matchKey (m : Match) : WithBot Int :=
  match getScheduleStart m with
  | some t => (t : WithBot Int)
  | none => ⊥

/-- The comparator `(a, b) => tB - tA` (`server.js` lines 123-127) as the
may-precede relation of a descending stable sort: `a` may stay before `b`
exactly when the comparator result is `≤ 0`, i.e. `tB ≤ tA` over
times-with-negative-infinity (two missing times compare as a tie, matching
the `NaN`-is-treated-as-zero rule of `Array.prototype.sort`). -/
def beatsR (a b : Match) : Prop :=
  matchKey b ≤ matchKey a

instance : DecidableRel beatsR := fun a b =>
  inferInstanceAs (Decidable (matchKey b ≤ matchKey a))

instance : IsTotal Match beatsR :=
  ⟨fun a b => (le_total (matchKey b) (matchKey a)).imp id id⟩

instance : IsTrans Match beatsR :=
  ⟨fun _ _ _ hab hbc => le_trans hbc hab⟩

/-- The stable descending sort of the candidate list
(`candidateMatches.sort(...)`, `server.js` lines 123-127). -/
def sortCandidates (l : List Match) : List Match :=
  l.insertionSort beatsR

/-- Candidate filtering and selection (`server.js` lines 113-130): keep the
matches whose team list contains `tid`; if none, no candidate; otherwise
prefer the non-`UPCOMING` ones (falling back to all team matches when every
one is `UPCOMING`), sort descending by schedule start, and take index 0. -/
def selectCandidate (matchList : List Match) (tid : String) : Option Match :=
  let teamMatches := matchList.filter (fun m => m.teams.any (fun t => t.id == tid))
  if teamMatches.isEmpty then none
  else
    let nonUpcoming := teamMatches.filter (fun m => m.status != "UPCOMING")
    let candidateMatches := if nonUpcoming.isEmpty then teamMatches else nonUpcoming
    (sortCandidates candidateMatches).head?

/-- A nested `participant` sub-object carrying an id (one of the two upstream
schema variants for identifying a scorecard entry). -/
structure PartRef where
  id : Option String
deriving Repr, DecidableEq

/-- A batting-figure entry of an innings, with primary field names
(`runsScored`, `ballsFaced`) and legacy aliases (`runs`, `balls`). -/
structure BattingEntry where
  participantId : Option String
  participant : Option PartRef
  runsScored : Option Int
  runs : Option Int
  ballsFaced : Option Int
  balls : Option Int
deriving Repr, DecidableEq

/-- A bowling-figure entry of an innings, primary names first, aliases
second; `economy` is only ever copied, never computed, so its numeric carrier
type is irrelevant and `Rat` is used. -/
structure BowlingEntry where
  participantId : Option String
  participant : Option PartRef
  oversBowled : Option String
  overs : Option String
  maidensBowled : Option Int
  maidens : Option Int
  runsConceded : Option Int
  runs : Option Int
  wicketsTaken : Option Int
  wickets : Option Int
  noBalls : Option Int
  wideBalls : Option Int
  wides : Option Int
  economy : Option Rat
  isBowling : Option Bool
deriving Repr, DecidableEq

/-- One innings of the detailed scorecard (`detail.innings[i]`). The
`batting` / `bowling` lists are optional because the code guards each with
`Array.isArray`. -/
structure InningsDetail where
  battingTeamId : Option String
  oversBowled : Option String
  batting : Option (List BattingEntry)
  bowling : Option (List BowlingEntry)
deriving Repr, DecidableEq

/-- The (unwrapped) detailed scorecard attached as `chosen.detail`; the code
only reads its `innings` array, guarded by `Array.isArray`. -/
structure Detail where
  innings : Option (List InningsDetail)
deriving Repr, DecidableEq

/-- JavaScript truthiness of an optional string (absent and `""` are falsy). -/
def strTruthy : Option String → Bool
  | some s => s != ""
  | none => false

/-- The JavaScript `a || b` chain on optional strings: `a` when truthy,
otherwise `b`. `jsOr a none` models `a || null`. -/
def jsOr (a b : Option String) : Option String :=
  if strTruthy a then a else b

/-- Strict equality `x === pid` between an optional id field of a scorecard
entry (`none` = field absent) and a looked-up participant id (`none` =
`null`): only two present equal strings compare equal — `undefined === null`
is `false` in JavaScript. -/
def idEq : Option String → Option String → Bool
  | some a, some b => a == b
  | _, _ => false

/-- The `findBat` lookup (`server.js` lines 245-247): first batting entry
whose flat `participantId`, or nested `participant.id`, strictly equals the
participant id. -/
def findBat (battingList : List BattingEntry) (pid : Option String) :
    Option BattingEntry :=
  battingList.find? (fun b =>
    idEq b.participantId pid ||
      (match b.participant with
       | some p => idEq p.id pid
       | none => false))

/-- The `findBowl` lookup (`server.js` lines 280-282), same shape as
`findBat` over the bowling list. -/
def findBowl (bowlingList : List BowlingEntry) (pid : Option String) :
    Option BowlingEntry :=
  bowlingList.find? (fun b =>
    idEq b.participantId pid ||
      (match b.participant with
       | some p => idEq p.id pid
       | none => false))

/-- The `currentPlayers` aggregate (`server.js` lines 229-303). Fields never
written on a code path are `none` (absent). -/
structure CurrentPlayers where
  strikerId : Option String
  strikerName : Option String
  nonStrikerId : Option String
  nonStrikerName : Option String
  bowlerId : Option String
  bowlerName : Option String
  lastBallTime : Option String
  strikerRuns : Option Int
  strikerBalls : Option Int
  nonStrikerRuns : Option Int
  nonStrikerBalls : Option Int
  bowlerRuns : Option Int
  bowlerBalls : Option Int
  bowlerOvers : Option String
  bowlerMaidens : Option Int
  bowlerRunsConceded : Option Int
  bowlerWickets : Option Int
  bowlerNoBalls : Option Int
  bowlerWides : Option Int
  bowlerEconomy : Option Rat
  isBowling : Option Bool
deriving Repr, DecidableEq

/-- Property access on the extracted last-ball value: a non-ball object (an
innings object reached through a misclassified payload) has every ball field
`undefined`. -/
def ballFields : BodyElem → Ball
  | .ball b => b
  | _ => ⟨none, none, none, none, none, none, none, none, none, none⟩

/-- Construction of `chosen.currentPlayers` from a truthy last ball and the
optional detail (`server.js` lines 229-303): identity/name fields from the
ball (primary name `||` legacy alias `|| null`), then — only when the detail
carries a nonempty `innings` array — batting stats for striker, non-striker
and bowler from the last innings' batting list, and bowling figures for the
bowler from its bowling list. -/
def buildCurrentPlayers (e : BodyElem) (detail : Option Detail) :
    CurrentPlayers :=
  let b := ballFields e
  let strikerId := jsOr b.strikerParticipantId none
  let nonStrikerId := jsOr b.nonStrikerParticipantId none
  let bowlerId := jsOr b.bowlerParticipantId none
  let base : CurrentPlayers :=
    { strikerId := strikerId
      strikerName := jsOr b.strikerShortName (jsOr b.striker none)
      nonStrikerId := nonStrikerId
      nonStrikerName := jsOr b.nonStrikerShortName (jsOr b.nonStriker none)
      bowlerId := bowlerId
      bowlerName := jsOr b.bowlerShortName (jsOr b.bowler none)
      lastBallTime := jsOr b.ballTime none
      strikerRuns := none, strikerBalls := none
      nonStrikerRuns := none, nonStrikerBalls := none
      bowlerRuns := none, bowlerBalls := none
      bowlerOvers := none, bowlerMaidens := none
      bowlerRunsConceded := none, bowlerWickets := none
      bowlerNoBalls := none, bowlerWides := none
      bowlerEconomy := none, isBowling := none }
  match detail with
  | none => base
  | some d =>
    match d.innings with
    | none => base
    | some inns =>
      match inns.getLast? with
      | none => base
      | some lastInn =>
        let battingList := lastInn.batting.getD []
        let bowlingList := lastInn.bowling.getD []
        let afterBat : CurrentPlayers :=
          { base with
            strikerRuns :=
              (findBat battingList strikerId).bind fun sb => sb.runsScored <|> sb.runs
            strikerBalls :=
              (findBat battingList strikerId).bind fun sb => sb.ballsFaced <|> sb.balls
            nonStrikerRuns :=
              (findBat battingList nonStrikerId).bind fun sb => sb.runsScored <|> sb.runs
            nonStrikerBalls :=
              (findBat battingList nonStrikerId).bind fun sb => sb.ballsFaced <|> sb.balls
            bowlerRuns :=
              (findBat battingList bowlerId).bind fun sb => sb.runsScored <|> sb.runs
            bowlerBalls :=
              (findBat battingList bowlerId).bind fun sb => sb.ballsFaced <|> sb.balls }
        match findBowl bowlingList bowlerId with
        | some bs =>
          { afterBat with
            bowlerOvers := bs.oversBowled <|> bs.overs
            bowlerMaidens := bs.maidensBowled <|> bs.maidens
            bowlerRunsConceded := bs.runsConceded <|> bs.runs
            bowlerWickets := bs.wicketsTaken <|> bs.wickets
            bowlerNoBalls := some ((bs.noBalls <|> bs.noBalls).getD 0)
            bowlerWides := some ((bs.wideBalls <|> bs.wides).getD 0)
            bowlerEconomy := bs.economy
            isBowling := bs.isBowling }
        | none =>
          { afterBat with
            bowlerOvers := none, bowlerMaidens := none
            bowlerRunsConceded := none, bowlerWickets := none
            bowlerNoBalls := none, bowlerWides := none
            bowlerEconomy := none, isBowling := none }

/-- Per-team `oversBowled` annotation (`server.js` lines 213-223): runs only
when a detail with an `innings` array is present; then each team gets the
`oversBowled` of the innings whose `battingTeamId` equals the team id
(falsy `oversBowled` and no matching innings both default to "0.0").
When the guard fails, the teams are left untouched (the field stays absent). -/
def annotateOvers (teams : List Team) (detail : Option Detail) : List Team :=
  match detail with
  | none => teams
  | some d =>
    match d.innings with
    | none => teams
    | some inns =>
      teams.map fun t =>
        match inns.find? (fun inn => idEq inn.battingTeamId (some t.id)) with
        | some ti => { t with oversBowled := some ((jsOr ti.oversBowled (some "0.0")).getD "0.0") }
        | none => { t with oversBowled := some "0.0" }

/-- The chosen match as mutated by the enrichment steps (`server.js` lines
132-316): the upstream record plus the written fields. -/
structure EnrichedMatch where
  base : Match
  teams : List Team
  detail : Option Detail
  lastBall : Option BodyElem
  currentPlayers : Option CurrentPlayers
deriving Repr

/-- Enrichment of the chosen match (`server.js` lines 132-316): attach the
detail (`null` on a failed fetch), run the balls step, annotate team overs,
and attach `lastBall` / `currentPlayers` when the resolved last ball is
truthy, explicit `null`s otherwise. -/
def enrichMatch (chosen : Match) (detailFetch : Except Unit Detail)
    (ballsFetch altFetch : Except Unit BallsBody) : EnrichedMatch :=
  let detail : Option Detail :=
    match detailFetch with
    | .ok d => some d
    | .error _ => none
  let lastBallVar := resolveBallsFlow ballsFetch altFetch
  let teams := annotateOvers chosen.teams detail
  match lastBallVar with
  | some e =>
    if elemTruthy e then
      { base := chosen, teams := teams, detail := detail,
        lastBall := some e,
        currentPlayers := some (buildCurrentPlayers e detail) }
    else
      { base := chosen, teams := teams, detail := detail,
        lastBall := none, currentPlayers := none }
  | none =>
    { base := chosen, teams := teams, detail := detail,
      lastBall := none, currentPlayers := none }

/-- The JSON responses the handler can produce. `plain` covers both the
no-`teamId` passthrough and the team-has-no-matches empty list (both are
`\x7b matches: [...] \x7d` of plain upstream records). -/
inductive ApiResponse where
  | badRequest (msg : String)
  | plain (matchList : List Match)
  | selected (m : EnrichedMatch)
  | serverError (msg : String)
deriving Repr

/-- The `/api/matches` handler (`server.js` lines 101-322) over the outcomes
of its four upstream fetches: missing `gradeId` gives 400; a failed
matches-list fetch/parse is caught by the outer handler and gives 500; with
no `teamId` the upstream list is returned as-is; otherwise the selected
candidate is enriched and returned, or `\x7b matches: [] \x7d` when the team
has no matches. -/
def handleMatches (gradeId teamId : Option String)
    (matchesFetch : Except String MatchesData)
    (detailFetch : Except Unit Detail)
    (ballsFetch altFetch : Except Unit BallsBody) : ApiResponse :=
  match gradeId with
  | none => .badRequest "Missing gradeId parameter"
  | some _ =>
    match matchesFetch with
    | .error msg => .serverError msg
    | .ok data =>
      let matchList := data.matchList.getD []
      match teamId with
      | none => .plain matchList
      | some tid =>
        match selectCandidate matchList tid with
        | none => .plain []
        | some chosen =>
          .selected (enrichMatch chosen detailFetch ballsFetch altFetch)

/-- A concrete ball with every optional field absent (witness data). -/
def wb0 : Ball :=
  ⟨none, none, none, none, none, none, none, none, none, none⟩

/-- A concrete ball carrying participant ids and names (witness data):
striker `P1`, non-striker `P3`, bowler `P2`. -/
def wb1 : Ball :=
  ⟨some "P1", some "S. One", none, some "P3", none, none,
   some "P2", some "B. Two", none, some "12:00"⟩

/-- A concrete upstream team record (witness data). -/
def wTeam : Team := ⟨"T1", some "HBCC", none⟩

/-- A concrete completed match of team `T1` with no schedule (witness data). -/
def wMatch : Match := ⟨"M1", "COMPLETED", [wTeam], []⟩

/-- A concrete upcoming match of team `T1` scheduled at time 100 (witness
data). -/
def wMatchA : Match := ⟨"A", "UPCOMING", [wTeam], [⟨some 100⟩]⟩

/-- A second upcoming match of team `T1`, also at time 100, so that it ties
with `wMatchA` under the schedule comparator (witness data). -/
def wMatchB : Match := ⟨"B", "UPCOMING", [wTeam], [⟨some 100⟩]⟩

/-- A concrete matches-list body containing only `wMatch` (witness data). -/
def wData : MatchesData := ⟨some [wMatch]⟩

/-- A concrete batting entry for participant `P1` with a recorded zero in the
primary `runsScored` field and a conflicting legacy `runs` alias (witness
data). -/
def wBatEntry : BattingEntry :=
  ⟨some "P1", none, some 0, some 7, some 3, none⟩

/-- A concrete bowling entry for participant `P2`: primary `oversBowled`,
legacy-only maidens, conflicting runs fields, absent no-balls, legacy-only
wides (witness data). -/
def wBowlEntry : BowlingEntry :=
  ⟨some "P2", none, some "4.0", none, none, some 1, some 20, some 99,
   some 2, none, none, none, some 1, none, some true⟩

/-- A concrete scorecard innings batted by team `T1` (witness data). -/
def wInn : InningsDetail :=
  ⟨some "T1", some "12.4", some [wBatEntry], some [wBowlEntry]⟩

/-- A concrete detail whose only innings is `wInn` (witness data). -/
def wDet : Detail := ⟨some [wInn]⟩

theorem getLast?_flatten_of_last_ne_nil {α : Type} :
    ∀ (il : List (List α)) (lbs : List α),
      il.getLast? = some lbs → lbs ≠ [] → il.flatten.getLast? = lbs.getLast?
  | [], _, h, _ => by simp at h
  | [x], lbs, h, _ => by
    simp only [List.getLast?_singleton, Option.some.injEq] at h
    subst h
    simp
  | x :: y :: ys, lbs, h, hne => by
    have h2 : (y :: ys).getLast? = some lbs := by
      simpa [List.getLast?_cons_cons] using h
    have ih := getLast?_flatten_of_last_ne_nil (y :: ys) lbs h2 hne
    rw [List.flatten_cons, List.getLast?_append, ih]
    cases hlb : lbs.getLast? with
    | none => exact absurd (List.getLast?_eq_none_iff.mp hlb) hne
    | some b => simp [Option.or_some]

/-- C10: when a non-array balls payload carries both an `innings` array and a
`balls` array, classification takes the wrapped-innings branch: the `innings`
list becomes the normalized innings and the top-level `balls` list is
ignored, because the classifier tests `innings` before `balls`. -/
theorem wrappedInningsShadowsWrappedBalls (il : List BodyElem)
    (bl : Option (List BodyElem)) :
    normalizeBalls (.obj (some il) bl) = il.map NInnings.raw ∧
    normalizeBalls (.obj (some il) bl) = normalizeBalls (.obj (some il) none) ∧
    resolveLastBall (.obj (some il) bl) = resolveLastBall (.obj (some il) none) := by
  refine ⟨rfl, rfl, rfl⟩

/-- C9: with `gradeId` present and no `teamId`, the response is the upstream
matches list passed through verbatim (`data.matches || []`), with no
enrichment applied to the list or its elements. -/
theorem passthroughWithoutTeamId (g : String) (l : List Match)
    (data : MatchesData) (df : Except Unit Detail)
    (bf af : Except Unit BallsBody) :
    handleMatches (some g) none (.ok ⟨some l⟩) df bf af = .plain l ∧
    handleMatches (some g) none (.ok data) df bf af =
      .plain (data.matchList.getD []) := by
  exact ⟨rfl, rfl⟩

theorem normalize_arr_of_firstHasBalls_false (es : List BodyElem)
    (hf : firstHasBalls es = false) :
    normalizeBalls (.arr es) = [.synth es] := by
  simp [normalizeBalls, hf]

theorem normalize_arr_of_firstHasBalls_true (es : List BodyElem)
    (hf : firstHasBalls es = true) :
    normalizeBalls (.arr es) = es.map .raw := by
  simp [normalizeBalls, hf]

theorem resolveLastBall_flat (seq : List Ball) :
    resolveLastBall (.arr (seq.map .ball)) = .ok ((seq.getLast?).map .ball) := by
  have hf : firstHasBalls (seq.map .ball) = false := by
    cases seq <;> simp [firstHasBalls, elemTruthy, elemBalls]
  simp only [resolveLastBall, normalize_arr_of_firstHasBalls_false _ hf,
    List.getLast?_singleton, inningsBalls, List.getLast?_map]

theorem resolveLastBall_inningsEnc (il : List (List Ball)) (lbs : List Ball)
    (h : il.getLast? = some lbs) :
    resolveLastBall
        (.arr (il.map fun bs => .innings (some (bs.map .ball)))) =
      .ok ((lbs.getLast?).map .ball) := by
  cases il with
  | nil => simp at h
  | cons x xs =>
    have hf :
        firstHasBalls ((x :: xs).map fun bs =>
          BodyElem.innings (some (bs.map .ball))) = true := by
      simp [firstHasBalls, elemTruthy, elemBalls]
    have h2 :
        ((((x :: xs).map fun bs => BodyElem.innings (some (bs.map .ball))).map
            NInnings.raw).getLast?) =
          some (.raw (.innings (some (lbs.map .ball)))) := by
      rw [List.map_map, List.getLast?_map, h]
      rfl
    simp only [resolveLastBall, normalize_arr_of_firstHasBalls_true _ hf, h2,
      inningsBalls, elemBalls, Option.getD_some, List.getLast?_map]

/-- C3: ball-feed normalization is shape-invariant: a flat ball array and an
equivalent array-of-innings encoding (innings each carry a present balls
list, their concatenation is the flat sequence, and the last innings is
nonempty so it holds the final delivery) yield the same extracted last ball,
namely the final delivery of the sequence. -/
theorem ballFeedShapeInvariant (seq : List Ball) (il : List (List Ball))
    (lbs : List Ball) (hlast : il.getLast? = some lbs) (hne : lbs ≠ [])
    (hjoin : il.flatten = seq) :
    resolveLastBall (.arr (seq.map .ball)) =
      resolveLastBall
        (.arr (il.map fun bs => .innings (some (bs.map .ball)))) ∧
    ∃ b, seq.getLast? = some b ∧
      resolveLastBall (.arr (seq.map .ball)) = .ok (some (.ball b)) := by
  have hseq : seq.getLast? = lbs.getLast? := by
    rw [← hjoin]
    exact getLast?_flatten_of_last_ne_nil il lbs hlast hne
  obtain ⟨b, hb⟩ : ∃ b, lbs.getLast? = some b := by
    cases hlb : lbs.getLast? with
    | none => exact absurd (List.getLast?_eq_none_iff.mp hlb) hne
    | some b => exact ⟨b, rfl⟩
  refine ⟨?_, b, by rw [hseq, hb], ?_⟩
  · rw [resolveLastBall_flat, resolveLastBall_inningsEnc il lbs hlast, hseq]
  · rw [resolveLastBall_flat, hseq, hb]
    rfl

/-- Witness for C3 at the sequence `[wb0, wb1]` and the two-innings encoding
`[[wb0], [wb1]]`. -/
theorem ballFeedShapeInvariant_witness :
    resolveLastBall (.arr ([wb0, wb1].map .ball)) =
      resolveLastBall
        (.arr (([[wb0], [wb1]] : List (List Ball)).map fun bs =>
          .innings (some (bs.map .ball)))) ∧
    ∃ b, ([wb0, wb1] : List Ball).getLast? = some b ∧
      resolveLastBall (.arr ([wb0, wb1].map .ball)) = .ok (some (.ball b)) :=
  ballFeedShapeInvariant [wb0, wb1] [[wb0], [wb1]] [wb1] rfl (by simp) rfl

theorem enrich_currentPlayers_iff (c : Match) (df : Except Unit Detail)
    (bf af : Except Unit BallsBody) :
    ((enrichMatch c df bf af).currentPlayers).isSome =
        truthyOpt (resolveBallsFlow bf af) ∧
    ((enrichMatch c df bf af).lastBall).isSome =
        truthyOpt (resolveBallsFlow bf af) := by
  unfold enrichMatch
  cases hlb : resolveBallsFlow bf af with
  | none => simp [truthyOpt]
  | some e =>
    cases he : elemTruthy e <;> simp [truthyOpt, he]

/-- C4: when the primary balls payload normalizes to no ball (the extraction
completes and finds none), the alternate endpoint is attempted exactly once
and its body goes through the identical normalization (a throw inside the
alt block is swallowed by its inner catch); `currentPlayers` is populated
exactly when a (truthy) last ball was resolved, so when both attempts yield
nothing the chosen match carries `lastBall = null` and
`currentPlayers = null` while the request still answers with the selected
match, not an error. By contrast, when the primary extraction throws (null
last innings, line 178), the throw is caught at line 209 past the fallback
block, so zero alternate attempts are made and the variable stays `null`
whatever the alternate body holds. -/
theorem ballsFallbackOnceAndDegrade (body ab : BallsBody) (chosen : Match)
    (df : Except Unit Detail) (g tid : String) (data : MatchesData)
    (hprim : resolveLastBall body = .ok none)
    (halt : resolveLastBall ab = .ok none)
    (hsel : selectCandidate (data.matchList.getD []) tid = some chosen) :
    altAttempts (.ok body) = 1 ∧
    (∀ ab2 : BallsBody,
      resolveBallsFlow (.ok body) (.ok ab2) =
        (match resolveLastBall ab2 with
         | .ok (some b) => some b
         | .ok none => none
         | .error _ => none)) ∧
    (∀ body2 (af2 : Except Unit BallsBody),
      resolveLastBall body2 = .error () →
        altAttempts (.ok body2) = 0 ∧
        resolveBallsFlow (.ok body2) af2 = none) ∧
    (∀ c df2 bf af,
      ((enrichMatch c df2 bf af).currentPlayers).isSome =
          truthyOpt (resolveBallsFlow bf af) ∧
      ((enrichMatch c df2 bf af).lastBall).isSome =
          truthyOpt (resolveBallsFlow bf af)) ∧
    (enrichMatch chosen df (.ok body) (.ok ab)).lastBall = none ∧
    (enrichMatch chosen df (.ok body) (.ok ab)).currentPlayers = none ∧
    handleMatches (some g) (some tid) (.ok data) df (.ok body) (.ok ab) =
      .selected (enrichMatch chosen df (.ok body) (.ok ab)) := by
  have hflow : ∀ ab2 : BallsBody,
      resolveBallsFlow (.ok body) (.ok ab2) =
        (match resolveLastBall ab2 with
         | .ok (some b) => some b
         | .ok none => none
         | .error _ => none) := by
    intro ab2
    cases h2 : resolveLastBall ab2 with
    | error e =>
      simp [resolveBallsFlow, ballsVarAfterAlt, hprim, truthyOpt, h2]
    | ok lb2 =>
      cases lb2 <;>
        simp [resolveBallsFlow, ballsVarAfterAlt, hprim, truthyOpt, h2]
  refine ⟨?_, hflow, ?_,
    fun c df2 bf af => enrich_currentPlayers_iff c df2 bf af, ?_, ?_, ?_⟩
  · simp [altAttempts, hprim, truthyOpt]
  · intro body2 af2 h2
    exact ⟨by simp [altAttempts, h2],
      by simp [resolveBallsFlow, ballsVarAfterAlt, h2]⟩
  · simp [enrichMatch, hflow ab, halt]
  · simp [enrichMatch, hflow ab, halt]
  · simp [handleMatches, hsel]

/-- Witness for C4: both balls bodies are `null` (their extraction completes
with no ball), the grade has the single completed match `wMatch` of team
`T1`. -/
theorem ballsFallbackOnceAndDegrade_witness :
    altAttempts (.ok .null) = 1 ∧
    (∀ ab2 : BallsBody,
      resolveBallsFlow (.ok .null) (.ok ab2) =
        (match resolveLastBall ab2 with
         | .ok (some b) => some b
         | .ok none => none
         | .error _ => none)) ∧
    (∀ body2 (af2 : Except Unit BallsBody),
      resolveLastBall body2 = .error () →
        altAttempts (.ok body2) = 0 ∧
        resolveBallsFlow (.ok body2) af2 = none) ∧
    (∀ c df2 bf af,
      ((enrichMatch c df2 bf af).currentPlayers).isSome =
          truthyOpt (resolveBallsFlow bf af) ∧
      ((enrichMatch c df2 bf af).lastBall).isSome =
          truthyOpt (resolveBallsFlow bf af)) ∧
    (enrichMatch wMatch (.ok wDet) (.ok .null) (.ok .null)).lastBall = none ∧
    (enrichMatch wMatch (.ok wDet) (.ok .null) (.ok .null)).currentPlayers = none ∧
    handleMatches (some "G") (some "T1") (.ok wData) (.ok wDet)
        (.ok .null) (.ok .null) =
      .selected (enrichMatch wMatch (.ok wDet) (.ok .null) (.ok .null)) :=
  ballsFallbackOnceAndDegrade .null .null wMatch (.ok wDet) "G" "T1" wData
    rfl rfl rfl

theorem enrich_detail_eq (c : Match) (df : Except Unit Detail)
    (bf af : Except Unit BallsBody) :
    (enrichMatch c df bf af).detail =
      (match df with | .ok d => some d | .error _ => none) := by
  unfold enrichMatch
  cases hlb : resolveBallsFlow bf af with
  | none => simp
  | some e => cases he : elemTruthy e <;> simp [he]

/-- C8: only a failure of the top-level matches-list fetch yields the 500
error response; with that fetch succeeded the handler never answers with an
error, whatever the downstream fetches do — a failed detail fetch degrades
`detail` to `null` (a successful one attaches it), and a failed primary
balls fetch (which also skips the fallback) leaves `lastBall` and
`currentPlayers` `null`. -/
theorem onlyMatchesFetchFails (g msg : String) (tid : Option String)
    (data : MatchesData) (df : Except Unit Detail)
    (bf af : Except Unit BallsBody) (chosen : Match) :
    handleMatches (some g) tid (.error msg) df bf af = .serverError msg ∧
    (∀ m, handleMatches (some g) tid (.ok data) df bf af ≠ .serverError m) ∧
    (enrichMatch chosen (.error ()) bf af).detail = none ∧
    (∀ d2, (enrichMatch chosen (.ok d2) bf af).detail = some d2) ∧
    (enrichMatch chosen df (.error ()) af).lastBall = none ∧
    (enrichMatch chosen df (.error ()) af).currentPlayers = none := by
  refine ⟨rfl, ?_, ?_, ?_, ?_, ?_⟩
  · intro m
    cases tid with
    | none => simp [handleMatches]
    | some t =>
      cases hsel : selectCandidate (data.matchList.getD []) t <;>
        simp [handleMatches, hsel]
  · rw [enrich_detail_eq]
  · intro d2
    rw [enrich_detail_eq]
  · simp [enrichMatch, resolveBallsFlow]
  · simp [enrichMatch, resolveBallsFlow]

/-- Witness for C8 at a concrete failing matches fetch and failing
downstream fetches. -/
theorem onlyMatchesFetchFails_witness :
    handleMatches (some "G") (some "T1") (.error "boom") (.error ())
        (.error ()) (.error ()) = .serverError "boom" ∧
    (∀ m, handleMatches (some "G") (some "T1") (.ok wData) (.error ())
        (.error ()) (.error ()) ≠ .serverError m) ∧
    (enrichMatch wMatch (.error ()) (.error ()) (.error ())).detail = none ∧
    (∀ d2, (enrichMatch wMatch (.ok d2) (.error ()) (.error ())).detail = some d2) ∧
    (enrichMatch wMatch (.error ()) (.error ()) (.error ())).lastBall = none ∧
    (enrichMatch wMatch (.error ()) (.error ()) (.error ())).currentPlayers = none :=
  onlyMatchesFetchFails "G" "boom" (some "T1") wData (.error ())
    (.error ()) (.error ()) wMatch

theorem build_ids (e : BodyElem) (d : Detail) (inns : List InningsDetail)
    (lastInn : InningsDetail) (h1 : d.innings = some inns)
    (h2 : inns.getLast? = some lastInn) :
    (buildCurrentPlayers e (some d)).strikerId =
        jsOr (ballFields e).strikerParticipantId none ∧
    (buildCurrentPlayers e (some d)).nonStrikerId =
        jsOr (ballFields e).nonStrikerParticipantId none ∧
    (buildCurrentPlayers e (some d)).bowlerId =
        jsOr (ballFields e).bowlerParticipantId none := by
  simp only [buildCurrentPlayers, h1, h2]
  cases hbowl : findBowl (lastInn.bowling.getD [])
      (jsOr (ballFields e).bowlerParticipantId none) <;> simp [hbowl]

theorem build_batFields (e : BodyElem) (d : Detail) (inns : List InningsDetail)
    (lastInn : InningsDetail) (h1 : d.innings = some inns)
    (h2 : inns.getLast? = some lastInn) :
    (buildCurrentPlayers e (some d)).strikerRuns =
      (findBat (lastInn.batting.getD [])
          (jsOr (ballFields e).strikerParticipantId none)).bind
        (fun sb => sb.runsScored <|> sb.runs) ∧
    (buildCurrentPlayers e (some d)).strikerBalls =
      (findBat (lastInn.batting.getD [])
          (jsOr (ballFields e).strikerParticipantId none)).bind
        (fun sb => sb.ballsFaced <|> sb.balls) ∧
    (buildCurrentPlayers e (some d)).nonStrikerRuns =
      (findBat (lastInn.batting.getD [])
          (jsOr (ballFields e).nonStrikerParticipantId none)).bind
        (fun sb => sb.runsScored <|> sb.runs) ∧
    (buildCurrentPlayers e (some d)).nonStrikerBalls =
      (findBat (lastInn.batting.getD [])
          (jsOr (ballFields e).nonStrikerParticipantId none)).bind
        (fun sb => sb.ballsFaced <|> sb.balls) := by
  simp only [buildCurrentPlayers, h1, h2]
  cases hbowl : findBowl (lastInn.bowling.getD [])
      (jsOr (ballFields e).bowlerParticipantId none) <;> simp [hbowl]

theorem build_bowlFields (e : BodyElem) (d : Detail) (inns : List InningsDetail)
    (lastInn : InningsDetail) (h1 : d.innings = some inns)
    (h2 : inns.getLast? = some lastInn) :
    (∀ bs, findBowl (lastInn.bowling.getD [])
        (jsOr (ballFields e).bowlerParticipantId none) = some bs →
      (buildCurrentPlayers e (some d)).bowlerOvers = (bs.oversBowled <|> bs.overs) ∧
      (buildCurrentPlayers e (some d)).bowlerMaidens = (bs.maidensBowled <|> bs.maidens) ∧
      (buildCurrentPlayers e (some d)).bowlerRunsConceded = (bs.runsConceded <|> bs.runs) ∧
      (buildCurrentPlayers e (some d)).bowlerWickets = (bs.wicketsTaken <|> bs.wickets) ∧
      (buildCurrentPlayers e (some d)).bowlerNoBalls = some ((bs.noBalls <|> bs.noBalls).getD 0) ∧
      (buildCurrentPlayers e (some d)).bowlerWides = some ((bs.wideBalls <|> bs.wides).getD 0) ∧
      (buildCurrentPlayers e (some d)).bowlerEconomy = bs.economy ∧
      (buildCurrentPlayers e (some d)).isBowling = bs.isBowling) ∧
    (findBowl (lastInn.bowling.getD [])
        (jsOr (ballFields e).bowlerParticipantId none) = none →
      (buildCurrentPlayers e (some d)).bowlerOvers = none ∧
      (buildCurrentPlayers e (some d)).bowlerMaidens = none ∧
      (buildCurrentPlayers e (some d)).bowlerRunsConceded = none ∧
      (buildCurrentPlayers e (some d)).bowlerWickets = none ∧
      (buildCurrentPlayers e (some d)).bowlerNoBalls = none ∧
      (buildCurrentPlayers e (some d)).bowlerWides = none ∧
      (buildCurrentPlayers e (some d)).bowlerEconomy = none ∧
      (buildCurrentPlayers e (some d)).isBowling = none) := by
  constructor
  · intro bs hbowl
    simp only [buildCurrentPlayers, h1, h2, hbowl]
    simp
  · intro hbowl
    simp only [buildCurrentPlayers, h1, h2, hbowl]
    simp

/-- C5: with a last ball and a detail carrying at least one innings, the
batting lookup against the last innings batting list yields `null` (not 0)
runs and balls-faced for the striker and non-striker when no entry matches,
and when an entry matches yields its values with the primary field names
(`runsScored`, `ballsFaced`) preferred over the legacy aliases (`runs`,
`balls`), so a recorded zero in a primary field comes back as 0. -/
theorem battingLookupNullVsZero (e : BodyElem) (d : Detail)
    (inns : List InningsDetail) (lastInn : InningsDetail)
    (h1 : d.innings = some inns) (h2 : inns.getLast? = some lastInn) :
    (findBat (lastInn.batting.getD [])
        ((buildCurrentPlayers e (some d)).strikerId) = none →
      (buildCurrentPlayers e (some d)).strikerRuns = none ∧
      (buildCurrentPlayers e (some d)).strikerBalls = none) ∧
    (∀ en, findBat (lastInn.batting.getD [])
        ((buildCurrentPlayers e (some d)).strikerId) = some en →
      (buildCurrentPlayers e (some d)).strikerRuns = (en.runsScored <|> en.runs) ∧
      (buildCurrentPlayers e (some d)).strikerBalls = (en.ballsFaced <|> en.balls) ∧
      (en.runsScored = some 0 →
        (buildCurrentPlayers e (some d)).strikerRuns = some 0) ∧
      (en.ballsFaced = some 0 →
        (buildCurrentPlayers e (some d)).strikerBalls = some 0)) ∧
    (findBat (lastInn.batting.getD [])
        ((buildCurrentPlayers e (some d)).nonStrikerId) = none →
      (buildCurrentPlayers e (some d)).nonStrikerRuns = none ∧
      (buildCurrentPlayers e (some d)).nonStrikerBalls = none) ∧
    (∀ en, findBat (lastInn.batting.getD [])
        ((buildCurrentPlayers e (some d)).nonStrikerId) = some en →
      (buildCurrentPlayers e (some d)).nonStrikerRuns = (en.runsScored <|> en.runs) ∧
      (buildCurrentPlayers e (some d)).nonStrikerBalls = (en.ballsFaced <|> en.balls) ∧
      (en.runsScored = some 0 →
        (buildCurrentPlayers e (some d)).nonStrikerRuns = some 0)) := by
  obtain ⟨hsid, hnsid, _⟩ := build_ids e d inns lastInn h1 h2
  obtain ⟨hsr, hsb, hnr, hnb⟩ := build_batFields e d inns lastInn h1 h2
  rw [hsid, hnsid]
  refine ⟨?_, ?_, ?_, ?_⟩
  · intro hfind
    rw [hsr, hsb, hfind]
    exact ⟨rfl, rfl⟩
  · intro en hfind
    rw [hsr, hsb, hfind]
    refine ⟨rfl, rfl, ?_, ?_⟩
    · intro hz
      simp [hz, Option.orElse]
    · intro hz
      simp [hz, Option.orElse]
  · intro hfind
    rw [hnr, hnb, hfind]
    exact ⟨rfl, rfl⟩
  · intro en hfind
    rw [hnr, hnb, hfind]
    refine ⟨rfl, rfl, ?_⟩
    intro hz
    simp [hz, Option.orElse]

/-- Witness for C5: striker `P1` has a batting entry with a recorded zero in
`runsScored` (and a conflicting legacy `runs` value), non-striker `P3` has no
entry. -/
theorem battingLookupNullVsZero_witness :
    ((findBat (wInn.batting.getD [])
        ((buildCurrentPlayers (.ball wb1) (some wDet)).strikerId) = none →
      (buildCurrentPlayers (.ball wb1) (some wDet)).strikerRuns = none ∧
      (buildCurrentPlayers (.ball wb1) (some wDet)).strikerBalls = none) ∧
    (∀ en, findBat (wInn.batting.getD [])
        ((buildCurrentPlayers (.ball wb1) (some wDet)).strikerId) = some en →
      (buildCurrentPlayers (.ball wb1) (some wDet)).strikerRuns = (en.runsScored <|> en.runs) ∧
      (buildCurrentPlayers (.ball wb1) (some wDet)).strikerBalls = (en.ballsFaced <|> en.balls) ∧
      (en.runsScored = some 0 →
        (buildCurrentPlayers (.ball wb1) (some wDet)).strikerRuns = some 0) ∧
      (en.ballsFaced = some 0 →
        (buildCurrentPlayers (.ball wb1) (some wDet)).strikerBalls = some 0)) ∧
    (findBat (wInn.batting.getD [])
        ((buildCurrentPlayers (.ball wb1) (some wDet)).nonStrikerId) = none →
      (buildCurrentPlayers (.ball wb1) (some wDet)).nonStrikerRuns = none ∧
      (buildCurrentPlayers (.ball wb1) (some wDet)).nonStrikerBalls = none) ∧
    (∀ en, findBat (wInn.batting.getD [])
        ((buildCurrentPlayers (.ball wb1) (some wDet)).nonStrikerId) = some en →
      (buildCurrentPlayers (.ball wb1) (some wDet)).nonStrikerRuns = (en.runsScored <|> en.runs) ∧
      (buildCurrentPlayers (.ball wb1) (some wDet)).nonStrikerBalls = (en.ballsFaced <|> en.balls) ∧
      (en.runsScored = some 0 →
        (buildCurrentPlayers (.ball wb1) (some wDet)).nonStrikerRuns = some 0))) ∧
    (buildCurrentPlayers (.ball wb1) (some wDet)).strikerRuns = some 0 ∧
    (buildCurrentPlayers (.ball wb1) (some wDet)).nonStrikerRuns = none :=
  ⟨battingLookupNullVsZero (.ball wb1) wDet [wInn] wInn rfl rfl, by decide, by decide⟩

/-- C6: enriching the bowler's figures from the last innings bowling list:
with no matching entry every bowling field is `null`; with an entry, missing
no-balls / wides sub-fields default to 0 (a present one is kept), and the
other fields take the entry's value with the primary field name preferred
over the legacy alias, staying `null` when both are undefined. -/
theorem bowlingFigureDefaulting (e : BodyElem) (d : Detail)
    (inns : List InningsDetail) (lastInn : InningsDetail)
    (h1 : d.innings = some inns) (h2 : inns.getLast? = some lastInn) :
    (findBowl (lastInn.bowling.getD [])
        ((buildCurrentPlayers e (some d)).bowlerId) = none →
      (buildCurrentPlayers e (some d)).bowlerOvers = none ∧
      (buildCurrentPlayers e (some d)).bowlerMaidens = none ∧
      (buildCurrentPlayers e (some d)).bowlerRunsConceded = none ∧
      (buildCurrentPlayers e (some d)).bowlerWickets = none ∧
      (buildCurrentPlayers e (some d)).bowlerNoBalls = none ∧
      (buildCurrentPlayers e (some d)).bowlerWides = none ∧
      (buildCurrentPlayers e (some d)).bowlerEconomy = none ∧
      (buildCurrentPlayers e (some d)).isBowling = none) ∧
    (∀ bs, findBowl (lastInn.bowling.getD [])
        ((buildCurrentPlayers e (some d)).bowlerId) = some bs →
      (buildCurrentPlayers e (some d)).bowlerOvers = (bs.oversBowled <|> bs.overs) ∧
      (buildCurrentPlayers e (some d)).bowlerMaidens = (bs.maidensBowled <|> bs.maidens) ∧
      (buildCurrentPlayers e (some d)).bowlerRunsConceded = (bs.runsConceded <|> bs.runs) ∧
      (buildCurrentPlayers e (some d)).bowlerWickets = (bs.wicketsTaken <|> bs.wickets) ∧
      (buildCurrentPlayers e (some d)).bowlerNoBalls = some (bs.noBalls.getD 0) ∧
      (buildCurrentPlayers e (some d)).bowlerWides = some ((bs.wideBalls <|> bs.wides).getD 0) ∧
      (bs.noBalls = none → (buildCurrentPlayers e (some d)).bowlerNoBalls = some 0) ∧
      (bs.wideBalls = none → bs.wides = none →
        (buildCurrentPlayers e (some d)).bowlerWides = some 0) ∧
      (buildCurrentPlayers e (some d)).bowlerEconomy = bs.economy ∧
      (buildCurrentPlayers e (some d)).isBowling = bs.isBowling) := by
  obtain ⟨_, _, hbid⟩ := build_ids e d inns lastInn h1 h2
  obtain ⟨hsome, hnone⟩ := build_bowlFields e d inns lastInn h1 h2
  rw [hbid]
  constructor
  · exact hnone
  · intro bs hbowl
    obtain ⟨ho, hm, hr, hw, hnb, hwd, hec, hib⟩ := hsome bs hbowl
    have hnb2 : (buildCurrentPlayers e (some d)).bowlerNoBalls =
        some (bs.noBalls.getD 0) := by
      rw [hnb]
      cases bs.noBalls <;> rfl
    refine ⟨ho, hm, hr, hw, hnb2, hwd, ?_, ?_, hec, hib⟩
    · intro hz
      rw [hnb2, hz]
      rfl
    · intro hz1 hz2
      rw [hwd, hz1, hz2]
      rfl

/-- Witness for C6: bowler `P2` has an entry with absent `noBalls`, a
legacy-only `wides`, and conflicting `runsConceded`/`runs` fields. -/
theorem bowlingFigureDefaulting_witness :
    ((findBowl (wInn.bowling.getD [])
        ((buildCurrentPlayers (.ball wb1) (some wDet)).bowlerId) = none →
      (buildCurrentPlayers (.ball wb1) (some wDet)).bowlerOvers = none ∧
      (buildCurrentPlayers (.ball wb1) (some wDet)).bowlerMaidens = none ∧
      (buildCurrentPlayers (.ball wb1) (some wDet)).bowlerRunsConceded = none ∧
      (buildCurrentPlayers (.ball wb1) (some wDet)).bowlerWickets = none ∧
      (buildCurrentPlayers (.ball wb1) (some wDet)).bowlerNoBalls = none ∧
      (buildCurrentPlayers (.ball wb1) (some wDet)).bowlerWides = none ∧
      (buildCurrentPlayers (.ball wb1) (some wDet)).bowlerEconomy = none ∧
      (buildCurrentPlayers (.ball wb1) (some wDet)).isBowling = none) ∧
    (∀ bs, findBowl (wInn.bowling.getD [])
        ((buildCurrentPlayers (.ball wb1) (some wDet)).bowlerId) = some bs →
      (buildCurrentPlayers (.ball wb1) (some wDet)).bowlerOvers = (bs.oversBowled <|> bs.overs) ∧
      (buildCurrentPlayers (.ball wb1) (some wDet)).bowlerMaidens = (bs.maidensBowled <|> bs.maidens) ∧
      (buildCurrentPlayers (.ball wb1) (some wDet)).bowlerRunsConceded = (bs.runsConceded <|> bs.runs) ∧
      (buildCurrentPlayers (.ball wb1) (some wDet)).bowlerWickets = (bs.wicketsTaken <|> bs.wickets) ∧
      (buildCurrentPlayers (.ball wb1) (some wDet)).bowlerNoBalls = some (bs.noBalls.getD 0) ∧
      (buildCurrentPlayers (.ball wb1) (some wDet)).bowlerWides = some ((bs.wideBalls <|> bs.wides).getD 0) ∧
      (bs.noBalls = none →
        (buildCurrentPlayers (.ball wb1) (some wDet)).bowlerNoBalls = some 0) ∧
      (bs.wideBalls = none → bs.wides = none →
        (buildCurrentPlayers (.ball wb1) (some wDet)).bowlerWides = some 0) ∧
      (buildCurrentPlayers (.ball wb1) (some wDet)).bowlerEconomy = bs.economy ∧
      (buildCurrentPlayers (.ball wb1) (some wDet)).isBowling = bs.isBowling)) ∧
    (buildCurrentPlayers (.ball wb1) (some wDet)).bowlerNoBalls = some 0 ∧
    (buildCurrentPlayers (.ball wb1) (some wDet)).bowlerWides = some 1 ∧
    (buildCurrentPlayers (.ball wb1) (some wDet)).bowlerRunsConceded = some 20 :=
  ⟨bowlingFigureDefaulting (.ball wb1) wDet [wInn] wInn rfl rfl,
    by decide, by decide, by decide⟩

/-- Counterexample to C7 as stated: with no detail available the annotation
step is skipped entirely, so the team's `oversBowled` stays absent — it is
not defaulted to "0.0". -/
theorem oversDefaultWithoutDetail_counterexample :
    annotateOvers [wTeam] none = [wTeam] ∧
    wTeam.oversBowled = none ∧
    ∀ t, t ∈ annotateOvers [wTeam] none → t.oversBowled ≠ some "0.0" := by
  decide

/-- C7 (amended): per-team `oversBowled` is written only when a detail with
an `innings` array is present: then each team receives the `oversBowled`
string of the innings whose `battingTeamId` equals the team id (defaulting
to "0.0" when that string is falsy), or "0.0" when the team has no matching
innings; with no detail, or a detail without an `innings` array, the teams
are returned unchanged and the field stays unset. -/
theorem oversAnnotationAmended (teams : List Team) (d : Detail)
    (inns : List InningsDetail) (h : d.innings = some inns) :
    annotateOvers teams none = teams ∧
    annotateOvers teams (some ⟨none⟩) = teams ∧
    annotateOvers teams (some d) = teams.map (fun t =>
      match inns.find? (fun inn => idEq inn.battingTeamId (some t.id)) with
      | some ti =>
        { t with oversBowled := some ((jsOr ti.oversBowled (some "0.0")).getD "0.0") }
      | none => { t with oversBowled := some "0.0" }) := by
  refine ⟨rfl, rfl, ?_⟩
  simp [annotateOvers, h]

/-- Witness for the amended C7: team `T1` batted the only innings of `wDet`
(overs "12.4"); a foreign team `T9` gets the "0.0" default. -/
theorem oversAnnotationAmended_witness :
    (annotateOvers [wTeam] none = [wTeam] ∧
     annotateOvers [wTeam] (some ⟨none⟩) = [wTeam] ∧
     annotateOvers [wTeam] (some wDet) = [wTeam].map (fun t =>
       match [wInn].find? (fun inn => idEq inn.battingTeamId (some t.id)) with
       | some ti =>
         { t with oversBowled := some ((jsOr ti.oversBowled (some "0.0")).getD "0.0") }
       | none => { t with oversBowled := some "0.0" })) ∧
    annotateOvers [wTeam] (some wDet) =
      [{ wTeam with oversBowled := some "12.4" }] ∧
    annotateOvers [⟨"T9", none, none⟩] (some wDet) =
      [⟨"T9", none, some "0.0"⟩] :=
  ⟨oversAnnotationAmended [wTeam] wDet [wInn] rfl, by decide, by decide⟩

theorem mem_of_head?_sortCandidates {l : List Match} {c : Match}
    (h : (sortCandidates l).head? = some c) : c ∈ l := by
  have h2 : c ∈ sortCandidates l := by
    cases hs : sortCandidates l with
    | nil => rw [hs] at h; cases h
    | cons a t =>
      rw [hs] at h
      have ha : a = c := by injection h
      exact ha ▸ List.mem_cons_self a t
  exact (List.mem_insertionSort beatsR).mp h2

/-- C1: for every upstream matches list and requested team id, selection
either picks no candidate — and the handler then answers with an empty
matches list — or picks a match whose team list contains the team id; and
whenever some team match is not `UPCOMING`, the chosen match is not
`UPCOMING`, regardless of schedule times. -/
theorem selectionBelongsToTeam (data : MatchesData) (tid : String) :
    (selectCandidate (data.matchList.getD []) tid = none ∧
      ∀ g df bf af,
        handleMatches (some g) (some tid) (.ok data) df bf af = .plain []) ∨
    (∃ m, selectCandidate (data.matchList.getD []) tid = some m ∧
      (m.teams.any fun t => t.id == tid) = true ∧
      ((∃ m2, m2 ∈ data.matchList.getD [] ∧
          (m2.teams.any fun t => t.id == tid) = true ∧
          m2.status ≠ "UPCOMING") → m.status ≠ "UPCOMING")) := by
  cases hsel : selectCandidate (data.matchList.getD []) tid with
  | none =>
    exact Or.inl ⟨rfl, fun g df bf af => by simp [handleMatches, hsel]⟩
  | some m =>
    refine Or.inr ⟨m, rfl, ?_⟩
    simp only [selectCandidate] at hsel
    cases hemp : ((data.matchList.getD []).filter fun m =>
        m.teams.any fun t => t.id == tid).isEmpty with
    | true => rw [hemp] at hsel; simp at hsel
    | false =>
      rw [hemp] at hsel
      simp only [Bool.false_eq_true, if_false] at hsel
      cases hne : (((data.matchList.getD []).filter fun m =>
          m.teams.any fun t => t.id == tid).filter fun m =>
            m.status != "UPCOMING").isEmpty with
      | true =>
        rw [hne] at hsel
        simp only [if_true] at hsel
        have hm := mem_of_head?_sortCandidates hsel
        have hmf := List.mem_filter.mp hm
        refine ⟨hmf.2, ?_⟩
        rintro ⟨m2, hmem2, hteam2, hstat2⟩
        exfalso
        have hm2 : m2 ∈ ((data.matchList.getD []).filter fun m =>
            m.teams.any fun t => t.id == tid).filter fun m =>
              m.status != "UPCOMING" :=
          List.mem_filter.mpr ⟨List.mem_filter.mpr ⟨hmem2, hteam2⟩,
            by simpa [bne_iff_ne] using hstat2⟩
        rw [List.isEmpty_iff.mp hne] at hm2
        cases hm2
      | false =>
        rw [hne] at hsel
        simp only [Bool.false_eq_true, if_false] at hsel
        have hm := mem_of_head?_sortCandidates hsel
        have h2 := List.mem_filter.mp hm
        have h3 := List.mem_filter.mp h2.1
        exact ⟨h3.2, fun _ => by simpa [bne_iff_ne] using h2.2⟩

/-- C2: candidate sorting orders by first-schedule start descending
(`beatsR`), the head of the sorted list outranks every candidate, a
scheduleless candidate (key negative infinity) never outranks a scheduled
one, and candidates that compare equal keep their original relative order
(stable sort, no secondary key). -/
theorem candidateSortOrder (l : List Match) :
    List.Sorted beatsR (sortCandidates l) ∧
    (∀ c, (sortCandidates l).head? = some c → ∀ m ∈ l, beatsR c m) ∧
    (∀ c m t, getScheduleStart c = none → getScheduleStart m = some t →
      ¬ beatsR c m) ∧
    (∀ a b, beatsR a b → beatsR b a → [a, b].Sublist l →
      [a, b].Sublist (sortCandidates l)) := by
  refine ⟨List.sorted_insertionSort beatsR l, ?_, ?_, ?_⟩
  · intro c hc m hm
    have hsort : List.Sorted beatsR (sortCandidates l) :=
      List.sorted_insertionSort beatsR l
    have hm2 : m ∈ sortCandidates l := (List.mem_insertionSort beatsR).mpr hm
    cases hs : sortCandidates l with
    | nil => rw [hs] at hc; cases hc
    | cons a t =>
      rw [hs] at hc hm2 hsort
      have hac : a = c := by injection hc
      subst hac
      rcases List.mem_cons.mp hm2 with hma | hmt
      · rw [hma]
        exact le_refl (matchKey a)
      · exact List.rel_of_sorted_cons hsort m hmt
  · intro c m t hc hm hbeats
    have : matchKey m ≤ matchKey c := hbeats
    rw [show matchKey c = ⊥ by simp [matchKey, hc],
      show matchKey m = ((t : Int) : WithBot Int) by simp [matchKey, hm]] at this
    exact WithBot.coe_ne_bot (le_bot_iff.mp this)
  · intro a b hab _ hsub
    exact List.pair_sublist_insertionSort hab hsub

/-- Witness for C2 at the tied candidates `wMatchA`, `wMatchB` (same start
time 100): the sort is stable on them and the head outranks both. -/
theorem candidateSortOrder_witness :
    List.Sorted beatsR (sortCandidates [wMatchA, wMatchB]) ∧
    List.Sublist [wMatchA, wMatchB] (sortCandidates [wMatchA, wMatchB]) ∧
    ((sortCandidates [wMatchA, wMatchB]).head? = some wMatchA →
      beatsR wMatchA wMatchB) :=
  ⟨(candidateSortOrder [wMatchA, wMatchB]).1,
   (candidateSortOrder [wMatchA, wMatchB]).2.2.2 wMatchA wMatchB
     (by decide) (by decide) (List.Sublist.refl _),
   fun h => (candidateSortOrder [wMatchA, wMatchB]).2.1 wMatchA h wMatchB
     (by decide)⟩

/-- Witness for C1: the claim instantiated at the concrete grade data
`wData` and team `T1`. -/
theorem selectionBelongsToTeam_witness :
    (selectCandidate (wData.matchList.getD []) "T1" = none ∧
      ∀ g df bf af,
        handleMatches (some g) (some "T1") (.ok wData) df bf af = .plain []) ∨
    (∃ m, selectCandidate (wData.matchList.getD []) "T1" = some m ∧
      (m.teams.any fun t => t.id == "T1") = true ∧
      ((∃ m2, m2 ∈ wData.matchList.getD [] ∧
          (m2.teams.any fun t => t.id == "T1") = true ∧
          m2.status ≠ "UPCOMING") → m.status ≠ "UPCOMING")) :=
  selectionBelongsToTeam wData "T1"

/-- Witness for C9: the passthrough at a concrete list and body. -/
theorem passthroughWithoutTeamId_witness :
    handleMatches (some "G") none (.ok ⟨some [wMatch]⟩) (.error ())
        (.error ()) (.error ()) = .plain [wMatch] ∧
    handleMatches (some "G") none (.ok wData) (.error ())
        (.error ()) (.error ()) = .plain (wData.matchList.getD []) :=
  passthroughWithoutTeamId "G" [wMatch] wData (.error ()) (.error ()) (.error ())

/-- Witness for C10: a concrete wrapped body carrying both lists. -/
theorem wrappedInningsShadowsWrappedBalls_witness :
    normalizeBalls (.obj (some [.ball wb0]) (some [.ball wb1])) =
      [.ball wb0].map NInnings.raw ∧
    normalizeBalls (.obj (some [.ball wb0]) (some [.ball wb1])) =
      normalizeBalls (.obj (some [.ball wb0]) none) ∧
    resolveLastBall (.obj (some [.ball wb0]) (some [.ball wb1])) =
      resolveLastBall (.obj (some [.ball wb0]) none) :=
  wrappedInningsShadowsWrappedBalls [.ball wb0] (some [.ball wb1])
